import Mathlib

/-!
Verification of the wallclock repository: a minimal X11 desktop clock that
renders two lines of strftime-formatted text onto an off-screen pixmap and
periodically presents it.

The repository holds two near-identical programs:
* variant A (`src/wallclock.c`): Xinerama monitor selection, a `force`
  parameter on `drawtext`, proportional-only width measurement, and a main
  loop that copies the pixmap to the root window only when something changed;
* variant B (`src/unnamed/part_000`): no monitor selection, `drawtext`
  without a `force` parameter, a fixed-pitch width heuristic chosen in
  `initline`, and a `draw(dirty)` that always copies the pixmap.

The embedding is effect-based: every interaction with the X server or the
terminal (text measurement round trips, fills, glyph draws, warnings,
copies, syncs) is recorded as an `Effect`.  Fallible paths return
`Except (Int × List Effect) _`, the error carrying the process exit status
and the effects emitted before exiting (`err`/`errx` print a diagnostic and
exit).  String formatting via `strftime` is abstracted as an
`Option String` input: `none` models a failed `strftime` (return value 0),
`some s` the formatted text (which in C always fits the 64-byte buffer,
so the `strncpy` into `line->buf` copies it exactly).
-/

namespace Wallclock

/-- One observable action of the program: an X request, a terminal write,
or a diagnostic.  `measureText` models the `XftTextExtentsUtf8` round trip
inside `textnw`; `diag` models the message printed by `err`/`errx` before a
fatal exit; `printCaught` models the `printf` inside variant B's signal
handler. -/
inductive Effect where
  | measureText (s : String)
  | setForeground (c : Int)
  | fillRect (x y w h : Int)
  | drawString (x y : Int) (s : String)
  | warnExcessiveWidth (w : Int) (s : String)
  | warnNonMonospace
  | warnPoll
  | diag (s : String)
  | printCaught (sig : Int)
  | copyArea
  | sync
  | createPixmap (w h : Int)
  deriving Repr, DecidableEq

/-- The process-wide drawing context fields `drawtext` reads: `dc.x`,
`dc.w`, the debug level and the background pixel. -/
structure DrawCfg where
  dcx : Int
  dcw : Int
  debug : Int
  bgPixel : Int
  deriving Repr, DecidableEq

/-- Variant A `struct line_t`: the `lastText` buffer `buf`, the vertical
band position `y`, font ascent and line height, and the one-shot
"excessive width" warning flag. -/
structure LineState where
  buf : String
  y : Int
  ascent : Int
  height : Int
  warned : Bool
  deriving Repr, DecidableEq

/-- Variant B `struct line_t`: as variant A plus `fwidth`, the fixed-pitch
advance width chosen by `initline` (0 selects the proportional path). -/
structure LineStateB where
  buf : String
  y : Int
  ascent : Int
  height : Int
  fwidth : Int
  warned : Bool
  deriving Repr, DecidableEq

/-- Variant A `drawtext` (src/wallclock.c:121-155).  `tnw` is the font's
measurement function (`textnw`, returning `ext.xOff`); `fmtResult` the
outcome of `strftime`.  Returns the new line state, the emitted effects and
the `changed` result.  C integer division truncates toward zero, hence
`Int.tdiv` for the centering coordinate. -/
def drawtextA (cfg : DrawCfg) (tnw : String → Int) (line : LineState)
    (fmtResult : Option String) (force : Bool) :
    Except (Int × List Effect) (LineState × List Effect × Bool) :=
  match fmtResult with
  | none => .error (1, [Effect.diag "ERROR strftime"])
  | some buf =>
    if force = false ∧ buf = line.buf then
      .ok (line, [], false)
    else
      let w := tnw buf
      let warnEffs : List Effect :=
        if line.warned = false ∧ w > cfg.dcw then [Effect.warnExcessiveWidth w buf] else []
      let line₁ : LineState :=
        if line.warned = false ∧ w > cfg.dcw then { line with warned := true } else line
      .ok ({ line₁ with buf := buf },
           Effect.measureText buf :: warnEffs ++
             [Effect.setForeground (if cfg.debug > 2 then 0x302030 else cfg.bgPixel),
              Effect.fillRect cfg.dcx line.y cfg.dcw line.height,
              Effect.drawString (Int.tdiv (cfg.dcw - w) 2) (line.y + line.ascent) buf],
           true)

/-- Variant A `draw` (src/wallclock.c:157-169): renders line 1 with
`force = dirty = false`, then line 2 with `force` equal to line 1's
`changed` result, syncs, and returns line 2's `changed` result. -/
def drawA (cfg : DrawCfg) (tnw1 tnw2 : String → Int) (l1 l2 : LineState)
    (f1 f2 : Option String) :
    Except (Int × List Effect) (LineState × LineState × List Effect × Bool) :=
  match drawtextA cfg tnw1 l1 f1 false with
  | .error e => .error e
  | .ok (l1x, e1, d1) =>
    match drawtextA cfg tnw2 l2 f2 d1 with
    | .error (c, e2) => .error (c, e1 ++ e2)
    | .ok (l2x, e2, d2) => .ok (l1x, l2x, e1 ++ e2 ++ [Effect.sync], d2)

/-- Variant B `drawtext` (src/unnamed/part_000:148-186).  No `force`
parameter.  Width: `fwidth * len` when the fixed-pitch path was selected
(`fwidth ≠ 0` and the text nonempty), else the measured extent (`ext.width`)
plus a `w / 8` slack; the fixed path performs no measurement.  Variant B
has no `dc.x`, so the fill starts at the centering coordinate. -/
def drawtextB (cfg : DrawCfg) (tnw : String → Int) (line : LineStateB)
    (fmtResult : Option String) :
    Except (Int × List Effect) (LineStateB × List Effect) :=
  match fmtResult with
  | none => .error (1, [Effect.diag "ERROR strftime"])
  | some buf =>
    if buf = line.buf then
      .ok (line, [])
    else
      let w0 := line.fwidth * (buf.length : Int)
      let w := if w0 = 0 then tnw buf else w0
      let ew := if w0 = 0 then Int.tdiv (tnw buf) 8 else 0
      let measureEffs : List Effect := if w0 = 0 then [Effect.measureText buf] else []
      let warnEffs : List Effect :=
        if line.warned = false ∧ w + ew > cfg.dcw then
          [Effect.warnExcessiveWidth (w + ew) buf]
        else []
      let line₁ : LineStateB :=
        if line.warned = false ∧ w + ew > cfg.dcw then { line with warned := true } else line
      .ok ({ line₁ with buf := buf },
           measureEffs ++ warnEffs ++
             [Effect.setForeground (if cfg.debug > 2 then 0x302030 else cfg.bgPixel),
              Effect.fillRect (Int.tdiv (cfg.dcw - w) 2) line.y (w + ew) line.height,
              Effect.drawString (Int.tdiv (cfg.dcw - w + ew) 2) (line.y + line.ascent) buf])

/-- Variant B `draw` (src/unnamed/part_000:188-201): renders both lines
only when `dirty`, but always copies the pixmap to the root window and
syncs. -/
def drawB (cfg : DrawCfg) (tnw1 tnw2 : String → Int) (l1 l2 : LineStateB)
    (f1 f2 : Option String) (dirty : Bool) :
    Except (Int × List Effect) (LineStateB × LineStateB × List Effect) :=
  if dirty then
    match drawtextB cfg tnw1 l1 f1 with
    | .error e => .error e
    | .ok (l1x, e1) =>
      match drawtextB cfg tnw2 l2 f2 with
      | .error (c, e2) => .error (c, e1 ++ e2)
      | .ok (l2x, e2) => .ok (l1x, l2x, e1 ++ e2 ++ [Effect.copyArea, Effect.sync])
  else .ok (l1, l2, [Effect.copyArea, Effect.sync])

/-- The three outcomes of the `poll` call in either main loop. -/
inductive PollResult where
  | pollError
  | timeout
  | activity
  deriving Repr, DecidableEq

/-- One iteration of variant A's main loop (src/wallclock.c:330-346):
`dirty` starts false; a poll error only warns; a timeout runs `draw` and
takes its result as `dirty`; connection activity sets `dirty` directly.
The pixmap is copied to the root window, then synced, iff `dirty`. -/
def mainIterA (cfg : DrawCfg) (tnw1 tnw2 : String → Int) (l1 l2 : LineState)
    (f1 f2 : Option String) (pr : PollResult) :
    Except (Int × List Effect) (LineState × LineState × List Effect) :=
  match pr with
  | .pollError => .ok (l1, l2, [Effect.warnPoll])
  | .timeout =>
    match drawA cfg tnw1 tnw2 l1 l2 f1 f2 with
    | .error e => .error e
    | .ok (l1x, l2x, effs, dirty) =>
      .ok (l1x, l2x, effs ++ if dirty then [Effect.copyArea, Effect.sync] else [])
  | .activity => .ok (l1, l2, [Effect.copyArea, Effect.sync])

/-- One iteration of variant B's main loop (src/unnamed/part_000:302-313):
a poll error only warns; a timeout calls `draw(true)`; connection activity
calls `draw(false)`.  Either `draw` call ends in an unconditional copy. -/
def mainIterB (cfg : DrawCfg) (tnw1 tnw2 : String → Int) (l1 l2 : LineStateB)
    (f1 f2 : Option String) (pr : PollResult) :
    Except (Int × List Effect) (LineStateB × LineStateB × List Effect) :=
  match pr with
  | .pollError => .ok (l1, l2, [Effect.warnPoll])
  | .timeout => drawB cfg tnw1 tnw2 l1 l2 f1 f2 true
  | .activity => drawB cfg tnw1 tnw2 l1 l2 f1 f2 false

/-- Variant A signal handler `catch` (src/wallclock.c:230-233): sets the
`running` flag to false; no other effect. -/
def catchA : Int → Bool × List Effect :=
  fun _ => (false, [])

/-- Variant B signal handler `catch` (src/unnamed/part_000:203-207):
prints `caught <signal>` to stdout, then sets `running` to false. -/
def catchB : Int → Bool × List Effect :=
  fun sig => (false, [Effect.printCaught sig])

/-- Variant B `initline`'s width-policy choice (src/unnamed/part_000:97-120):
`fwidth` starts as the font's `max_advance_width`; if that exceeds 1.5× the
measured width of the glyph "0" the font is treated as proportional
(`fwidth := 0`) and, at debug level > 0, a warning is printed.  The C
comparison `fwidth > textnw(font,"0",1) * 1.5` is exact over the integers
as `2 * fwidth > 3 * zeroWidth`.  Returns the chosen `fwidth` and the
emitted effects. -/
def initlineB (debug : Int) (maxAdvance : Int) (tnw : String → Int) :
    Int × List Effect :=
  if 2 * maxAdvance > 3 * tnw "0" then
    (0, Effect.measureText "0" :: (if debug > 0 then [Effect.warnNonMonospace] else []))
  else
    (maxAdvance, [Effect.measureText "0"])

/-- One Xinerama monitor record (`XineramaScreenInfo`): origin and extent. -/
structure MonInfo where
  xOrg : Int
  yOrg : Int
  width : Int
  height : Int
  deriving Repr, DecidableEq

/-- Variant A `setup`'s geometry selection and pixmap creation
(src/wallclock.c:184-208).  `screenArg` is `args.screen` (-1 when no `-s`
flag was given), `defGeom` the whole-display geometry, `mons` the Xinerama
monitor list.  With `-s n` and `n >= #monitors`, `errx(1, ...)` exits with
a diagnostic before `XCreatePixmap`; otherwise the selected monitor's
origin/extent become the surface geometry and the pixmap is created at
that extent.  Without `-s`, the first monitor with `x_org == 0` is chosen
(reading past the array, modelled as a stuck error, if none exists). -/
def setupGeomA (screenArg : Int) (defGeom : MonInfo) (xActive : Bool)
    (mons : List MonInfo) :
    Except (Int × List Effect) (MonInfo × List Effect) :=
  if xActive then
    if screenArg = -1 then
      match mons.find? (fun m => m.xOrg == 0) with
      | some m => .ok (m, [Effect.createPixmap m.width m.height])
      | none => .error (1, [])
    else
      if screenArg ≥ (mons.length : Int) then
        .error (1, [Effect.diag "exceeds the number of screens"])
      else
        match mons.get? screenArg.toNat with
        | some m => .ok (m, [Effect.createPixmap m.width m.height])
        | none => .error (1, [])
  else
    .ok (defGeom, [Effect.createPixmap defGeom.width defGeom.height])

/-- Sequential execution of per-tick steps, accumulating the effect trace;
an error aborts the run, keeping the effects emitted so far. -/
def runSteps {σ ι : Type} (step : σ → ι → Except (Int × List Effect) (σ × List Effect)) :
    σ → List ι → Except (Int × List Effect) (σ × List Effect)
  | s, [] => .ok (s, [])
  | s, i :: is =>
    match step s i with
    | .error e => .error e
    | .ok (s₁, effs) =>
      match runSteps step s₁ is with
      | .error (c, effs₁) => .error (c, effs ++ effs₁)
      | .ok (s₂, effs₁) => .ok (s₂, effs ++ effs₁)

/-- One `drawtext` call of variant A viewed as a trace step: the input is
the `strftime` outcome together with the `force` flag. -/
def stepA (cfg : DrawCfg) (tnw : String → Int) (line : LineState)
    (inp : Option String × Bool) :
    Except (Int × List Effect) (LineState × List Effect) :=
  match drawtextA cfg tnw line inp.1 inp.2 with
  | .error e => .error e
  | .ok (l₁, effs, _) => .ok (l₁, effs)

/-- A whole sequence of variant A `drawtext` calls on one line. -/
def runA (cfg : DrawCfg) (tnw : String → Int) (line : LineState)
    (inputs : List (Option String × Bool)) :
    Except (Int × List Effect) (LineState × List Effect) :=
  runSteps (stepA cfg tnw) line inputs

/-- One `drawtext` call of variant B viewed as a trace step. -/
def stepB (cfg : DrawCfg) (tnw : String → Int) (line : LineStateB)
    (inp : Option String) :
    Except (Int × List Effect) (LineStateB × List Effect) :=
  drawtextB cfg tnw line inp

/-- A whole sequence of variant B `drawtext` calls on one line. -/
def runB (cfg : DrawCfg) (tnw : String → Int) (line : LineStateB)
    (inputs : List (Option String)) :
    Except (Int × List Effect) (LineStateB × List Effect) :=
  runSteps (stepB cfg tnw) line inputs

/-- The string of the last glyph-drawing operation in a trace, folded from
a given earlier value. -/
def lastDrawnFrom (acc : Option String) (effs : List Effect) : Option String :=
  effs.foldl (fun a e => match e with | .drawString _ _ s => some s | _ => a) acc

/-- The string of the last glyph-drawing operation in a trace, if any:
the most recently painted text. -/
def lastDrawn (effs : List Effect) : Option String :=
  lastDrawnFrom none effs

/-- Recognizer for the "excessive width" diagnostic. -/
def isWarnExcessive : Effect → Bool
  | .warnExcessiveWidth _ _ => true
  | _ => false

/-- Number of "excessive width" diagnostics in a trace. -/
def warnCount : List Effect → Nat
  | [] => 0
  | e :: es => (if isWarnExcessive e then 1 else 0) + warnCount es

/-- Recognizer for glyph-drawing operations. -/
def isDrawString : Effect → Bool
  | .drawString _ _ _ => true
  | _ => false

/-- `drawtext` (variant A), skip branch: unforced and the formatted text
equals `lastText` — no effects, unchanged state, `changed = false`. -/
theorem drawtextA_skip (cfg : DrawCfg) (tnw : String → Int) (line : LineState)
    (buf : String) (h : buf = line.buf) :
    drawtextA cfg tnw line (some buf) false = .ok (line, [], false) := by
  simp [drawtextA, h]

/-- `drawtext` (variant B), skip branch. -/
theorem drawtextB_skip (cfg : DrawCfg) (tnw : String → Int) (line : LineStateB)
    (buf : String) (h : buf = line.buf) :
    drawtextB cfg tnw line (some buf) = .ok (line, []) := by
  simp [drawtextB, h]

/-- `drawtext` (variant A), paint branch, as an explicit equation. -/
theorem drawtextA_paint (cfg : DrawCfg) (tnw : String → Int) (line : LineState)
    (buf : String) (force : Bool) (hns : ¬(force = false ∧ buf = line.buf)) :
    drawtextA cfg tnw line (some buf) force =
      .ok ({(if line.warned = false ∧ tnw buf > cfg.dcw then
              { line with warned := true } else line) with buf := buf},
           Effect.measureText buf ::
             (if line.warned = false ∧ tnw buf > cfg.dcw then
               [Effect.warnExcessiveWidth (tnw buf) buf] else []) ++
             [Effect.setForeground (if cfg.debug > 2 then 0x302030 else cfg.bgPixel),
              Effect.fillRect cfg.dcx line.y cfg.dcw line.height,
              Effect.drawString (Int.tdiv (cfg.dcw - tnw buf) 2) (line.y + line.ascent) buf],
           true) := by
  by_cases hw : line.warned = false ∧ tnw buf > cfg.dcw <;> simp [drawtextA, hns, hw]

/-- `drawtext` (variant B), paint branch, as an explicit equation. -/
theorem drawtextB_paint (cfg : DrawCfg) (tnw : String → Int) (line : LineStateB)
    (buf : String) (hns : ¬(buf = line.buf)) :
    drawtextB cfg tnw line (some buf) =
      (let w0 := line.fwidth * (buf.length : Int)
       let w := if w0 = 0 then tnw buf else w0
       let ew := if w0 = 0 then Int.tdiv (tnw buf) 8 else 0
       .ok ({(if line.warned = false ∧ w + ew > cfg.dcw then
               { line with warned := true } else line) with buf := buf},
            (if w0 = 0 then [Effect.measureText buf] else []) ++
              (if line.warned = false ∧ w + ew > cfg.dcw then
                [Effect.warnExcessiveWidth (w + ew) buf] else []) ++
              [Effect.setForeground (if cfg.debug > 2 then 0x302030 else cfg.bgPixel),
               Effect.fillRect (Int.tdiv (cfg.dcw - w) 2) line.y (w + ew) line.height,
               Effect.drawString (Int.tdiv (cfg.dcw - w + ew) 2) (line.y + line.ascent) buf])) := by
  by_cases h0 : line.fwidth * (buf.length : Int) = 0 <;>
    by_cases hw : line.warned = false ∧
        (if line.fwidth * (buf.length : Int) = 0 then tnw buf else line.fwidth * (buf.length : Int)) +
          (if line.fwidth * (buf.length : Int) = 0 then Int.tdiv (tnw buf) 8 else 0) > cfg.dcw <;>
    simp_all [drawtextB]

/-- C1: with `force = false` and the formatted string equal to `lastText`,
`drawtext` measures nothing, draws nothing, leaves the line state unchanged
and reports `changed = false` — in both variants; and after a successful
paint, a second call with the same formatted string is such a no-op. -/
theorem C1_render_same_text_noop :
    (∀ (cfg : DrawCfg) (tnw : String → Int) (line : LineState) (buf : String),
        buf = line.buf →
        drawtextA cfg tnw line (some buf) false = .ok (line, [], false)) ∧
    (∀ (cfg : DrawCfg) (tnw : String → Int) (line : LineStateB) (buf : String),
        buf = line.buf →
        drawtextB cfg tnw line (some buf) = .ok (line, [])) ∧
    (∀ (cfg : DrawCfg) (tnw : String → Int) (line l₁ : LineState) (buf : String)
        (force : Bool) (effs : List Effect),
        drawtextA cfg tnw line (some buf) force = .ok (l₁, effs, true) →
        drawtextA cfg tnw l₁ (some buf) false = .ok (l₁, [], false)) := by
  refine ⟨fun cfg tnw line buf h => drawtextA_skip cfg tnw line buf h,
          fun cfg tnw line buf h => drawtextB_skip cfg tnw line buf h,
          fun cfg tnw line l₁ buf force effs h => ?_⟩
  by_cases hns : force = false ∧ buf = line.buf
  · rw [hns.1, drawtextA_skip cfg tnw line buf hns.2] at h
    simp at h
  · rw [drawtextA_paint cfg tnw line buf force hns] at h
    have hbuf : l₁.buf = buf := by
      have := (Except.ok.inj h)
      have h1 := congrArg Prod.fst this
      simp at h1
      rw [← h1]
    exact drawtextA_skip cfg tnw l₁ buf hbuf.symm

/-- Witness for C1 at a concrete input. -/
theorem C1_render_same_text_noop_witness :
    drawtextA ⟨0, 100, 1, 7⟩ (fun s => 10 * (s.length : Int))
        ⟨"12:00", 5, 8, 10, false⟩ (some "12:00") false
      = .ok (⟨"12:00", 5, 8, 10, false⟩, [], false) :=
  C1_render_same_text_noop.1 ⟨0, 100, 1, 7⟩ (fun s => 10 * (s.length : Int))
    ⟨"12:00", 5, 8, 10, false⟩ "12:00" rfl

/-- C7: when `strftime` fails (the formatted output does not fit the
64-byte buffer), `drawtext` exits the process with status 1 after printing
a diagnostic, having painted nothing and updated no line state — in both
variants.  The error result carries the exit status and the only effect
emitted before exiting, the diagnostic. -/
theorem C7_format_failure_fatal :
    (∀ (cfg : DrawCfg) (tnw : String → Int) (line : LineState) (force : Bool),
        drawtextA cfg tnw line none force = .error (1, [Effect.diag "ERROR strftime"])) ∧
    (∀ (cfg : DrawCfg) (tnw : String → Int) (line : LineStateB),
        drawtextB cfg tnw line none = .error (1, [Effect.diag "ERROR strftime"])) ∧
    (1 : Int) ≠ 0 :=
  ⟨fun _ _ _ _ => rfl, fun _ _ _ => rfl, by decide⟩

/-- C8 counterexample: variant B's signal handler does perform I/O — it
prints a `caught <signal>` message — so its only effect is not the flag
write. -/
theorem C8_counterexample :
    catchB 2 = (false, [Effect.printCaught 2]) ∧ (catchB 2).2 ≠ [] :=
  ⟨rfl, by decide⟩

/-- C8 (amended): both handlers set the `running` flag to false; in
`src/wallclock.c` that is the handler's only effect, while the variant in
`src/unnamed/part_000` additionally prints a `caught <signal>` message to
stdout. -/
theorem C8_signal_handler_effects (sig : Int) :
    catchA sig = (false, []) ∧ catchB sig = (false, [Effect.printCaught sig]) :=
  ⟨rfl, rfl⟩

/-- C9: with Xinerama active and a requested monitor index `s ≥ 0`, if
`s` is at least the monitor count the process exits fatally (status 1,
diagnostic) without creating the pixmap; if `s` is in range, the selected
monitor's origin and extent become the surface geometry and the pixmap is
created at that extent. -/
theorem C9_monitor_selection :
    (∀ (s : Int) (defG : MonInfo) (mons : List MonInfo),
        0 ≤ s → (mons.length : Int) ≤ s →
        setupGeomA s defG true mons =
          .error (1, [Effect.diag "exceeds the number of screens"])) ∧
    (∀ (s : Int) (defG : MonInfo) (mons : List MonInfo) (m : MonInfo),
        0 ≤ s → s < (mons.length : Int) → mons.get? s.toNat = some m →
        setupGeomA s defG true mons =
          .ok (m, [Effect.createPixmap m.width m.height])) := by
  constructor
  · intro s defG mons hs hn
    have hne : ¬(s = -1) := by omega
    have hge : (mons.length : Int) ≤ s := hn
    simp [setupGeomA, hne, hge]
  · intro s defG mons m hs hlt hm
    have hne : ¬(s = -1) := by omega
    have hnge : ¬((mons.length : Int) ≤ s) := by omega
    rw [List.get?_eq_getElem?] at hm
    simp [setupGeomA, hne, hnge, hm]

/-- Witness for C9: two monitors, requesting index 2 is fatal before the
pixmap exists; requesting index 1 selects the second monitor's geometry. -/
theorem C9_monitor_selection_witness :
    setupGeomA 2 ⟨0, 0, 1920, 1080⟩ true [⟨0, 0, 800, 600⟩, ⟨800, 0, 800, 600⟩]
      = .error (1, [Effect.diag "exceeds the number of screens"]) ∧
    setupGeomA 1 ⟨0, 0, 1920, 1080⟩ true [⟨0, 0, 800, 600⟩, ⟨800, 0, 800, 600⟩]
      = .ok (⟨800, 0, 800, 600⟩, [Effect.createPixmap 800 600]) :=
  ⟨C9_monitor_selection.1 2 ⟨0, 0, 1920, 1080⟩ [⟨0, 0, 800, 600⟩, ⟨800, 0, 800, 600⟩]
      (by decide) (by decide),
   C9_monitor_selection.2 1 ⟨0, 0, 1920, 1080⟩ [⟨0, 0, 800, 600⟩, ⟨800, 0, 800, 600⟩]
      ⟨800, 0, 800, 600⟩ (by decide) (by decide) (by decide)⟩

/-- `draw` (variant A) as the composition of its two `drawtext` calls:
line 2's `force` is line 1's `changed` result, and the returned `dirty`
is line 2's `changed` result. -/
theorem drawA_eq (cfg : DrawCfg) (t1 t2 : String → Int) (l1 l2 : LineState)
    (f1 f2 : String) (l1x : LineState) (e1 : List Effect) (d1 : Bool)
    (l2x : LineState) (e2 : List Effect) (d2 : Bool)
    (h1 : drawtextA cfg t1 l1 (some f1) false = .ok (l1x, e1, d1))
    (h2 : drawtextA cfg t2 l2 (some f2) d1 = .ok (l2x, e2, d2)) :
    drawA cfg t1 t2 l1 l2 (some f1) (some f2) =
      .ok (l1x, l2x, e1 ++ e2 ++ [Effect.sync], d2) := by
  simp [drawA, h1, h2]

/-- `draw` (variant A) when neither line's text changed: sync only. -/
theorem drawA_skip_skip (cfg : DrawCfg) (t1 t2 : String → Int) (l1 l2 : LineState)
    (f1 f2 : String) (h1 : f1 = l1.buf) (h2 : f2 = l2.buf) :
    drawA cfg t1 t2 l1 l2 (some f1) (some f2) = .ok (l1, l2, [Effect.sync], false) := by
  rw [drawA_eq cfg t1 t2 l1 l2 f1 f2 _ _ _ _ _ _
        (drawtextA_skip cfg t1 l1 f1 h1) (drawtextA_skip cfg t2 l2 f2 h2)]
  simp

/-- `draw` (variant A) reports `dirty = false` exactly when neither line's
formatted text differs from its `lastText`. -/
theorem drawA_dirty_iff (cfg : DrawCfg) (t1 t2 : String → Int) (l1 l2 : LineState)
    (f1 f2 : String) (l1x l2x : LineState) (effs : List Effect) (d : Bool)
    (h : drawA cfg t1 t2 l1 l2 (some f1) (some f2) = .ok (l1x, l2x, effs, d)) :
    d = false ↔ (f1 = l1.buf ∧ f2 = l2.buf) := by
  by_cases h1 : f1 = l1.buf
  · by_cases h2 : f2 = l2.buf
    · rw [drawA_skip_skip cfg t1 t2 l1 l2 f1 f2 h1 h2] at h
      simp only [Except.ok.injEq, Prod.mk.injEq] at h
      obtain ⟨-, -, -, hd⟩ := h
      subst hd
      simp [h1, h2]
    · have hns2 : ¬((false : Bool) = false ∧ f2 = l2.buf) := by simp [h2]
      rw [drawA_eq cfg t1 t2 l1 l2 f1 f2 _ _ _ _ _ _
            (drawtextA_skip cfg t1 l1 f1 h1) (drawtextA_paint cfg t2 l2 f2 false hns2)] at h
      simp only [Except.ok.injEq, Prod.mk.injEq] at h
      obtain ⟨-, -, -, hd⟩ := h
      subst hd
      simp [h2]
  · have hns1 : ¬((false : Bool) = false ∧ f1 = l1.buf) := by simp [h1]
    have hns2 : ¬((true : Bool) = false ∧ f2 = l2.buf) := by simp
    rw [drawA_eq cfg t1 t2 l1 l2 f1 f2 _ _ _ _ _ _
          (drawtextA_paint cfg t1 l1 f1 false hns1)
          (drawtextA_paint cfg t2 l2 f2 true hns2)] at h
    simp only [Except.ok.injEq, Prod.mk.injEq] at h
    obtain ⟨-, -, -, hd⟩ := h
    subst hd
    simp [h1]

/-- `drawtext` (variant A) never emits a canvas-to-window copy. -/
theorem drawtextA_no_copy (cfg : DrawCfg) (tnw : String → Int) (line : LineState)
    (f : Option String) (force : Bool) (l₁ : LineState) (effs : List Effect) (ch : Bool)
    (h : drawtextA cfg tnw line f force = .ok (l₁, effs, ch)) :
    Effect.copyArea ∉ effs := by
  cases f with
  | none => simp [drawtextA] at h
  | some buf =>
    by_cases hns : force = false ∧ buf = line.buf
    · obtain ⟨hf, hb⟩ := hns
      subst hf
      rw [drawtextA_skip cfg tnw line buf hb] at h
      simp only [Except.ok.injEq, Prod.mk.injEq] at h
      obtain ⟨-, he, -⟩ := h
      simp [← he]
    · by_cases hw : line.warned = false ∧ tnw buf > cfg.dcw <;>
        · rw [drawtextA_paint cfg tnw line buf force hns] at h
          simp only [hw, if_true, if_false, Except.ok.injEq, Prod.mk.injEq] at h
          obtain ⟨-, he, -⟩ := h
          simp [← he]

/-- `draw` (variant A) never emits a canvas-to-window copy. -/
theorem drawA_no_copy (cfg : DrawCfg) (t1 t2 : String → Int) (l1 l2 : LineState)
    (f1 f2 : Option String) (l1x l2x : LineState) (effs : List Effect) (d : Bool)
    (h : drawA cfg t1 t2 l1 l2 f1 f2 = .ok (l1x, l2x, effs, d)) :
    Effect.copyArea ∉ effs := by
  simp only [drawA] at h
  split at h
  next e heq1 => simp at h
  next L1 e1 d1 heq1 =>
    split at h
    next c e2 heq2 => simp at h
    next L2 e2 d2 heq2 =>
      simp only [Except.ok.injEq, Prod.mk.injEq] at h
      obtain ⟨-, -, he, -⟩ := h
      subst he
      have n1 := drawtextA_no_copy cfg t1 l1 f1 false L1 e1 d1 heq1
      have n2 := drawtextA_no_copy cfg t2 l2 f2 d1 L2 e2 d2 heq2
      simp [List.mem_append, n1, n2]

/-- C10: in `src/wallclock.c`'s full redraw, `drawtext` for line 2 is
forced whenever line 1's text changed, so line 2 is then repainted and
reported changed even when its formatted text equals its `lastText`; and
`draw` returns `false` exactly when neither line's text changed. -/
theorem C10_force_chaining :
    (∀ (cfg : DrawCfg) (t1 t2 : String → Int) (l1 l2 : LineState) (f1 f2 : String)
        (l1x l2x : LineState) (effs : List Effect) (d : Bool),
        drawA cfg t1 t2 l1 l2 (some f1) (some f2) = .ok (l1x, l2x, effs, d) →
        (d = false ↔ (f1 = l1.buf ∧ f2 = l2.buf))) ∧
    (∀ (cfg : DrawCfg) (t1 t2 : String → Int) (l1 l2 : LineState) (f1 f2 : String),
        ¬(f1 = l1.buf) → f2 = l2.buf →
        ∃ l1x l2x effs,
          drawA cfg t1 t2 l1 l2 (some f1) (some f2) = .ok (l1x, l2x, effs, true) ∧
          Effect.fillRect cfg.dcx l2.y cfg.dcw l2.height ∈ effs ∧
          Effect.drawString (Int.tdiv (cfg.dcw - t2 f2) 2) (l2.y + l2.ascent) f2 ∈ effs) := by
  constructor
  · exact fun cfg t1 t2 l1 l2 f1 f2 l1x l2x effs d h =>
      drawA_dirty_iff cfg t1 t2 l1 l2 f1 f2 l1x l2x effs d h
  · intro cfg t1 t2 l1 l2 f1 f2 h1 h2
    have hns1 : ¬((false : Bool) = false ∧ f1 = l1.buf) := by simp [h1]
    have hns2 : ¬((true : Bool) = false ∧ f2 = l2.buf) := by simp
    refine ⟨_, _, _,
      drawA_eq cfg t1 t2 l1 l2 f1 f2 _ _ _ _ _ _
        (drawtextA_paint cfg t1 l1 f1 false hns1)
        (drawtextA_paint cfg t2 l2 f2 true hns2), ?_, ?_⟩
    · exact List.mem_append_left _ (List.mem_append_right _
        (List.mem_cons_of_mem _ (List.mem_append_right _ (by simp))))
    · exact List.mem_append_left _ (List.mem_append_right _
        (List.mem_cons_of_mem _ (List.mem_append_right _ (by simp))))

/-- Witness for C10 at concrete inputs: line 1 changes ("11:11" → "22:22"),
line 2's text "2024" is unchanged, yet `draw` repaints line 2's band and
reports dirty. -/
theorem C10_force_chaining_witness :
    ((true = false) ↔ (("22:22" = "11:11") ∧ ("2024" = "2024"))) ∧
    (∃ l1x l2x effs,
        drawA ⟨0, 100, 1, 7⟩ (fun s => 10 * (s.length : Int)) (fun s => 10 * (s.length : Int))
            ⟨"11:11", 0, 8, 10, false⟩ ⟨"2024", 20, 6, 8, false⟩
            (some "22:22") (some "2024") = .ok (l1x, l2x, effs, true) ∧
        Effect.fillRect 0 20 100 8 ∈ effs ∧
        Effect.drawString 30 26 "2024" ∈ effs) :=
  ⟨C10_force_chaining.1 ⟨0, 100, 1, 7⟩ (fun s => 10 * (s.length : Int))
      (fun s => 10 * (s.length : Int)) ⟨"11:11", 0, 8, 10, false⟩ ⟨"2024", 20, 6, 8, false⟩
      "22:22" "2024" ⟨"22:22", 0, 8, 10, false⟩ ⟨"2024", 20, 6, 8, false⟩
      [Effect.measureText "22:22", Effect.setForeground 7,
       Effect.fillRect 0 0 100 10, Effect.drawString 25 8 "22:22",
       Effect.measureText "2024", Effect.setForeground 7,
       Effect.fillRect 0 20 100 8, Effect.drawString 30 26 "2024",
       Effect.sync] true (by rfl),
   C10_force_chaining.2 ⟨0, 100, 1, 7⟩ (fun s => 10 * (s.length : Int))
      (fun s => 10 * (s.length : Int)) ⟨"11:11", 0, 8, 10, false⟩ ⟨"2024", 20, 6, 8, false⟩
      "22:22" "2024" (by decide) rfl⟩

/-- Every clearing fill emitted by variant A's `drawtext` is exactly the
line's band rectangle `(dc.x, line.y, dc.w, line.height)`. -/
theorem fillA_band (cfg : DrawCfg) (tnw : String → Int) (line : LineState)
    (f : Option String) (force : Bool) (l₁ : LineState) (effs : List Effect)
    (ch : Bool) (x y w h : Int)
    (hok : drawtextA cfg tnw line f force = .ok (l₁, effs, ch))
    (hmem : Effect.fillRect x y w h ∈ effs) :
    x = cfg.dcx ∧ y = line.y ∧ w = cfg.dcw ∧ h = line.height := by
  cases f with
  | none => simp [drawtextA] at hok
  | some buf =>
    by_cases hns : force = false ∧ buf = line.buf
    · obtain ⟨hf, hb⟩ := hns
      subst hf
      rw [drawtextA_skip cfg tnw line buf hb] at hok
      simp only [Except.ok.injEq, Prod.mk.injEq] at hok
      obtain ⟨-, he, -⟩ := hok
      rw [← he] at hmem
      simp at hmem
    · by_cases hw : line.warned = false ∧ tnw buf > cfg.dcw <;>
        · rw [drawtextA_paint cfg tnw line buf force hns] at hok
          simp only [hw, if_true, if_false, Except.ok.injEq, Prod.mk.injEq] at hok
          obtain ⟨-, he, -⟩ := hok
          rw [← he] at hmem
          simp at hmem
          exact hmem

/-- Every clearing fill emitted by variant B's `drawtext` lies vertically
exactly in the line's band `[line.y, line.y + line.height)`. -/
theorem fillB_band (cfg : DrawCfg) (tnw : String → Int) (line : LineStateB)
    (f : Option String) (l₁ : LineStateB) (effs : List Effect) (x y w h : Int)
    (hok : drawtextB cfg tnw line f = .ok (l₁, effs))
    (hmem : Effect.fillRect x y w h ∈ effs) :
    y = line.y ∧ h = line.height := by
  cases f with
  | none => simp [drawtextB] at hok
  | some buf =>
    by_cases hns : buf = line.buf
    · rw [drawtextB_skip cfg tnw line buf hns] at hok
      simp only [Except.ok.injEq, Prod.mk.injEq] at hok
      obtain ⟨-, he⟩ := hok
      rw [← he] at hmem
      simp at hmem
    · rw [drawtextB_paint cfg tnw line buf hns] at hok
      by_cases h0 : line.fwidth * (buf.length : Int) = 0
      · by_cases hw : line.warned = false ∧ tnw buf + Int.tdiv (tnw buf) 8 > cfg.dcw <;>
          · simp only [h0, hw, if_true, if_false, Except.ok.injEq, Prod.mk.injEq] at hok
            obtain ⟨-, he⟩ := hok
            rw [← he] at hmem
            simp at hmem
            exact ⟨hmem.2.1, hmem.2.2.2⟩
      · by_cases hw : line.warned = false ∧ line.fwidth * (buf.length : Int) > cfg.dcw <;>
          · simp only [h0, if_true, if_false, if_neg h0, add_zero, hw,
              Except.ok.injEq, Prod.mk.injEq] at hok
            obtain ⟨-, he⟩ := hok
            rw [← he] at hmem
            simp at hmem
            exact ⟨hmem.2.1, hmem.2.2.2⟩

/-- C2 counterexample: in `src/wallclock.c`, with line 1's text changed
("11:11" → "22:22") and line 2's formatted text equal to its `lastText`
("2024"), the redraw still clears and redraws line 2's band
(the `fillRect 0 20 100 8` below): the band of a line whose text is
unchanged is repainted. -/
theorem C2_counterexample :
    ("2024" = (⟨"2024", 20, 6, 8, false⟩ : LineState).buf) ∧
    drawA ⟨0, 100, 1, 7⟩ (fun s => 10 * (s.length : Int)) (fun s => 10 * (s.length : Int))
        ⟨"11:11", 0, 8, 10, false⟩ ⟨"2024", 20, 6, 8, false⟩ (some "22:22") (some "2024")
      = .ok (⟨"22:22", 0, 8, 10, false⟩, ⟨"2024", 20, 6, 8, false⟩,
             [Effect.measureText "22:22", Effect.setForeground 7,
              Effect.fillRect 0 0 100 10, Effect.drawString 25 8 "22:22",
              Effect.measureText "2024", Effect.setForeground 7,
              Effect.fillRect 0 20 100 8, Effect.drawString 30 26 "2024",
              Effect.sync], true) ∧
    Effect.fillRect 0 20 100 8 ∈
      [Effect.measureText "22:22", Effect.setForeground 7,
       Effect.fillRect 0 0 100 10, Effect.drawString 25 8 "22:22",
       Effect.measureText "2024", Effect.setForeground 7,
       Effect.fillRect 0 20 100 8, Effect.drawString 30 26 "2024",
       Effect.sync] :=
  ⟨rfl, by rfl, by decide⟩

/-- C2 (amended): every clearing fill stays in the repainted line's band —
in variant A it is exactly `[x, x+w) × [y, y+lineHeight)`, in variant B its
vertical extent is exactly `[y, y+lineHeight)`.  A line whose formatted
text equals its `lastText` is never repainted in variant B; in variant A it
is repainted exactly when line 1 changed (the chained force flag), and when
neither line changed a redraw emits no paint effects at all. -/
theorem C2_redraw_band_discipline :
    (∀ (cfg : DrawCfg) (tnw : String → Int) (line : LineStateB) (buf : String),
        buf = line.buf → drawtextB cfg tnw line (some buf) = .ok (line, [])) ∧
    (∀ (cfg : DrawCfg) (tnw : String → Int) (line : LineStateB) (f : Option String)
        (l₁ : LineStateB) (effs : List Effect) (x y w h : Int),
        drawtextB cfg tnw line f = .ok (l₁, effs) →
        Effect.fillRect x y w h ∈ effs → y = line.y ∧ h = line.height) ∧
    (∀ (cfg : DrawCfg) (tnw : String → Int) (line : LineState) (f : Option String)
        (force : Bool) (l₁ : LineState) (effs : List Effect) (ch : Bool) (x y w h : Int),
        drawtextA cfg tnw line f force = .ok (l₁, effs, ch) →
        Effect.fillRect x y w h ∈ effs →
        x = cfg.dcx ∧ y = line.y ∧ w = cfg.dcw ∧ h = line.height) ∧
    (∀ (cfg : DrawCfg) (t1 t2 : String → Int) (l1 l2 : LineState) (f1 f2 : String),
        f1 = l1.buf → f2 = l2.buf →
        drawA cfg t1 t2 l1 l2 (some f1) (some f2) = .ok (l1, l2, [Effect.sync], false)) ∧
    (∀ (cfg : DrawCfg) (t1 t2 : String → Int) (l1 l2 : LineState) (f1 f2 : String),
        ¬(f1 = l1.buf) → f2 = l2.buf →
        ∃ l1x l2x effs,
          drawA cfg t1 t2 l1 l2 (some f1) (some f2) = .ok (l1x, l2x, effs, true) ∧
          Effect.fillRect cfg.dcx l2.y cfg.dcw l2.height ∈ effs) := by
  refine ⟨fun cfg tnw line buf h => drawtextB_skip cfg tnw line buf h,
          fun cfg tnw line f l₁ effs x y w h hok hmem =>
            fillB_band cfg tnw line f l₁ effs x y w h hok hmem,
          fun cfg tnw line f force l₁ effs ch x y w h hok hmem =>
            fillA_band cfg tnw line f force l₁ effs ch x y w h hok hmem,
          fun cfg t1 t2 l1 l2 f1 f2 h1 h2 => drawA_skip_skip cfg t1 t2 l1 l2 f1 f2 h1 h2,
          fun cfg t1 t2 l1 l2 f1 f2 h1 h2 => ?_⟩
  have hns1 : ¬((false : Bool) = false ∧ f1 = l1.buf) := by simp [h1]
  have hns2 : ¬((true : Bool) = false ∧ f2 = l2.buf) := by simp
  refine ⟨_, _, _,
    drawA_eq cfg t1 t2 l1 l2 f1 f2 _ _ _ _ _ _
      (drawtextA_paint cfg t1 l1 f1 false hns1)
      (drawtextA_paint cfg t2 l2 f2 true hns2), ?_⟩
  exact List.mem_append_left _ (List.mem_append_right _
    (List.mem_cons_of_mem _ (List.mem_append_right _ (by simp))))

/-- Witness for C2 (amended) at concrete inputs: an unchanged line in
variant B is left untouched, and a variant-A redraw with line 1 changed
clears line 2's exact band. -/
theorem C2_redraw_band_discipline_witness :
    drawtextB ⟨0, 100, 1, 7⟩ (fun s => 10 * (s.length : Int))
        ⟨"08:00", 0, 8, 10, 20, false⟩ (some "08:00")
      = .ok (⟨"08:00", 0, 8, 10, 20, false⟩, []) ∧
    (∃ l1x l2x effs,
        drawA ⟨0, 100, 1, 7⟩ (fun s => 10 * (s.length : Int)) (fun s => 10 * (s.length : Int))
            ⟨"11:11", 0, 8, 10, false⟩ ⟨"2024", 20, 6, 8, false⟩
            (some "22:22") (some "2024") = .ok (l1x, l2x, effs, true) ∧
        Effect.fillRect 0 20 100 8 ∈ effs) :=
  ⟨C2_redraw_band_discipline.1 ⟨0, 100, 1, 7⟩ (fun s => 10 * (s.length : Int))
      ⟨"08:00", 0, 8, 10, 20, false⟩ "08:00" rfl,
   C2_redraw_band_discipline.2.2.2.2 ⟨0, 100, 1, 7⟩ (fun s => 10 * (s.length : Int))
      (fun s => 10 * (s.length : Int)) ⟨"11:11", 0, 8, 10, false⟩ ⟨"2024", 20, 6, 8, false⟩
      "22:22" "2024" (by decide) rfl⟩

/-- C3 counterexample: a timeout tick of variant B on which neither line's
formatted text changed still copies the canvas onto the root window and
syncs — the copy is not conditioned on content change in
`src/unnamed/part_000`. -/
theorem C3_counterexample :
    ("11:11" = (⟨"11:11", 0, 8, 10, 20, false⟩ : LineStateB).buf) ∧
    ("2024" = (⟨"2024", 20, 6, 8, 20, false⟩ : LineStateB).buf) ∧
    mainIterB ⟨0, 100, 1, 7⟩ (fun s => 10 * (s.length : Int)) (fun s => 10 * (s.length : Int))
        ⟨"11:11", 0, 8, 10, 20, false⟩ ⟨"2024", 20, 6, 8, 20, false⟩
        (some "11:11") (some "2024") PollResult.timeout
      = .ok (⟨"11:11", 0, 8, 10, 20, false⟩, ⟨"2024", 20, 6, 8, 20, false⟩,
             [Effect.copyArea, Effect.sync]) ∧
    Effect.copyArea ∈ [Effect.copyArea, Effect.sync] :=
  ⟨rfl, rfl, by rfl, by decide⟩

/-- C3 (amended): in `src/wallclock.c` the canvas is copied to the visible
surface (and synced) on a loop iteration iff connection activity requested
a re-present or a timeout tick changed some line's text; in
`src/unnamed/part_000` the canvas is copied on every iteration that is not
a poll error, whether or not anything changed. -/
theorem C3_present_condition :
    (∀ (cfg : DrawCfg) (t1 t2 : String → Int) (l1 l2 : LineState) (f1 f2 : String)
        (pr : PollResult) (l1x l2x : LineState) (trace : List Effect),
        mainIterA cfg t1 t2 l1 l2 (some f1) (some f2) pr = .ok (l1x, l2x, trace) →
        (Effect.copyArea ∈ trace ↔
          (pr = PollResult.activity ∨
           (pr = PollResult.timeout ∧ ¬(f1 = l1.buf ∧ f2 = l2.buf))))) ∧
    (∀ (cfg : DrawCfg) (t1 t2 : String → Int) (l1 l2 : LineStateB)
        (f1 f2 : Option String) (pr : PollResult) (l1x l2x : LineStateB)
        (trace : List Effect),
        pr ≠ PollResult.pollError →
        mainIterB cfg t1 t2 l1 l2 f1 f2 pr = .ok (l1x, l2x, trace) →
        Effect.copyArea ∈ trace) := by
  constructor
  · intro cfg t1 t2 l1 l2 f1 f2 pr l1x l2x trace h
    cases pr with
    | pollError =>
      simp only [mainIterA, Except.ok.injEq, Prod.mk.injEq] at h
      obtain ⟨-, -, ht⟩ := h
      subst ht
      simp
    | activity =>
      simp only [mainIterA, Except.ok.injEq, Prod.mk.injEq] at h
      obtain ⟨-, -, ht⟩ := h
      subst ht
      simp
    | timeout =>
      simp only [mainIterA] at h
      split at h
      next e heq => simp at h
      next L1 L2 effs d heq =>
        simp only [Except.ok.injEq, Prod.mk.injEq] at h
        obtain ⟨-, -, ht⟩ := h
        subst ht
        have hiff := drawA_dirty_iff cfg t1 t2 l1 l2 f1 f2 L1 L2 effs d heq
        have hnc := drawA_no_copy cfg t1 t2 l1 l2 (some f1) (some f2) L1 L2 effs d heq
        cases d with
        | false =>
          have hbufs := hiff.mp rfl
          simp [hnc, hbufs]
        | true =>
          have hne : ¬(f1 = l1.buf ∧ f2 = l2.buf) := by
            intro hc
            simpa using hiff.mpr hc
          simp [hne]
  · intro cfg t1 t2 l1 l2 f1 f2 pr l1x l2x trace hpr h
    cases pr with
    | pollError => exact absurd rfl hpr
    | timeout =>
      simp only [mainIterB, drawB, if_true] at h
      split at h
      next e heq => simp at h
      next L1 e1 heq1 =>
        split at h
        next c e2 heq2 => simp at h
        next L2 e2 heq2 =>
          simp only [Except.ok.injEq, Prod.mk.injEq] at h
          obtain ⟨-, -, ht⟩ := h
          subst ht
          exact List.mem_append_right _ (by simp)
    | activity =>
      simp only [mainIterB, drawB, if_false, Bool.false_eq_true, Except.ok.injEq,
        Prod.mk.injEq] at h
      obtain ⟨-, -, ht⟩ := h
      subst ht
      simp

/-- Witness for C3 (amended) at a concrete input: a variant-B timeout tick
with unchanged text still yields a copy in its trace. -/
theorem C3_present_condition_witness :
    Effect.copyArea ∈ [Effect.copyArea, Effect.sync] :=
  C3_present_condition.2 ⟨0, 100, 1, 7⟩ (fun s => 10 * (s.length : Int))
    (fun s => 10 * (s.length : Int)) ⟨"11:11", 0, 8, 10, 20, false⟩
    ⟨"2024", 20, 6, 8, 20, false⟩ (some "11:11") (some "2024") PollResult.timeout
    ⟨"11:11", 0, 8, 10, 20, false⟩ ⟨"2024", 20, 6, 8, 20, false⟩
    [Effect.copyArea, Effect.sync] (by decide) (by rfl)

/-- Folding the last-drawn string over an appended trace. -/
theorem lastDrawnFrom_append (acc : Option String) (e1 e2 : List Effect) :
    lastDrawnFrom acc (e1 ++ e2) = lastDrawnFrom (lastDrawnFrom acc e1) e2 := by
  simp [lastDrawnFrom, List.foldl_append]

/-- Warning counts add over appended traces. -/
theorem warnCount_append (e1 e2 : List Effect) :
    warnCount (e1 ++ e2) = warnCount e1 + warnCount e2 := by
  induction e1 with
  | nil => simp [warnCount]
  | cons e es ih => simp [warnCount, ih]; omega

/-- One variant-A `drawtext` step preserves the "lastText is the most
recently painted string" bookkeeping. -/
theorem stepA_buf (cfg : DrawCfg) (tnw : String → Int) (line : LineState)
    (inp : Option String × Bool) (l₁ : LineState) (effs : List Effect)
    (h : stepA cfg tnw line inp = .ok (l₁, effs)) (acc : Option String)
    (hacc : line.buf = acc.getD "") :
    l₁.buf = (lastDrawnFrom acc effs).getD "" := by
  obtain ⟨f, force⟩ := inp
  cases f with
  | none => simp [stepA, drawtextA] at h
  | some buf =>
    by_cases hns : force = false ∧ buf = line.buf
    · obtain ⟨hf, hb⟩ := hns
      subst hf
      simp [stepA, drawtextA_skip cfg tnw line buf hb] at h
      obtain ⟨h1, h2⟩ := h
      subst h1
      subst h2
      simpa [lastDrawnFrom] using hacc
    · by_cases hw : line.warned = false ∧ tnw buf > cfg.dcw <;>
        · simp [stepA, drawtextA_paint cfg tnw line buf force hns, hw] at h
          obtain ⟨h1, h2⟩ := h
          subst h1
          subst h2
          simp [lastDrawnFrom]

/-- One variant-B `drawtext` step preserves the same bookkeeping. -/
theorem stepB_buf (cfg : DrawCfg) (tnw : String → Int) (line : LineStateB)
    (f : Option String) (l₁ : LineStateB) (effs : List Effect)
    (h : stepB cfg tnw line f = .ok (l₁, effs)) (acc : Option String)
    (hacc : line.buf = acc.getD "") :
    l₁.buf = (lastDrawnFrom acc effs).getD "" := by
  cases f with
  | none => simp [stepB, drawtextB] at h
  | some buf =>
    by_cases hns : buf = line.buf
    · simp [stepB, drawtextB_skip cfg tnw line buf hns] at h
      obtain ⟨h1, h2⟩ := h
      subst h1
      subst h2
      simpa [lastDrawnFrom] using hacc
    · by_cases h0 : line.fwidth * (buf.length : Int) = 0
      · by_cases hw : line.warned = false ∧ tnw buf + Int.tdiv (tnw buf) 8 > cfg.dcw <;>
          · simp [stepB, drawtextB_paint cfg tnw line buf hns, h0, hw] at h
            obtain ⟨h1, h2⟩ := h
            subst h1
            subst h2
            simp [lastDrawnFrom]
      · by_cases hw : line.warned = false ∧ line.fwidth * (buf.length : Int) > cfg.dcw <;>
          · simp [stepB, drawtextB_paint cfg tnw line buf hns, h0, hw] at h
            obtain ⟨h1, h2⟩ := h
            subst h1
            subst h2
            simp [lastDrawnFrom]

/-- Over any sequence of variant-A `drawtext` calls, `lastText` equals the
most recently painted string (folded from `acc`). -/
theorem runA_buf (cfg : DrawCfg) (tnw : String → Int) :
    ∀ (inputs : List (Option String × Bool)) (line : LineState) (acc : Option String),
      line.buf = acc.getD "" →
      ∀ (l' : LineState) (trace : List Effect),
        runA cfg tnw line inputs = .ok (l', trace) →
        l'.buf = (lastDrawnFrom acc trace).getD "" := by
  intro inputs
  induction inputs with
  | nil =>
    intro line acc hacc l' trace h
    simp [runA, runSteps] at h
    obtain ⟨h1, h2⟩ := h
    subst h1
    subst h2
    simpa [lastDrawnFrom] using hacc
  | cons i is ih =>
    intro line acc hacc l' trace h
    simp only [runA, runSteps] at h
    split at h
    next e heq => simp at h
    next l₁ effs heq =>
      split at h
      next c effs₁ heq₁ => simp at h
      next l₂ trace₁ heq₁ =>
        simp only [Except.ok.injEq, Prod.mk.injEq] at h
        obtain ⟨h1, h2⟩ := h
        subst h1
        subst h2
        have hb := stepA_buf cfg tnw line i l₁ effs heq acc hacc
        have hrec := ih l₁ (lastDrawnFrom acc effs) hb l₂ trace₁ (by simpa [runA] using heq₁)
        rw [lastDrawnFrom_append]
        exact hrec

/-- Over any sequence of variant-B `drawtext` calls, `lastText` equals the
most recently painted string (folded from `acc`). -/
theorem runB_buf (cfg : DrawCfg) (tnw : String → Int) :
    ∀ (inputs : List (Option String)) (line : LineStateB) (acc : Option String),
      line.buf = acc.getD "" →
      ∀ (l' : LineStateB) (trace : List Effect),
        runB cfg tnw line inputs = .ok (l', trace) →
        l'.buf = (lastDrawnFrom acc trace).getD "" := by
  intro inputs
  induction inputs with
  | nil =>
    intro line acc hacc l' trace h
    simp [runB, runSteps] at h
    obtain ⟨h1, h2⟩ := h
    subst h1
    subst h2
    simpa [lastDrawnFrom] using hacc
  | cons i is ih =>
    intro line acc hacc l' trace h
    simp only [runB, runSteps] at h
    split at h
    next e heq => simp at h
    next l₁ effs heq =>
      split at h
      next c effs₁ heq₁ => simp at h
      next l₂ trace₁ heq₁ =>
        simp only [Except.ok.injEq, Prod.mk.injEq] at h
        obtain ⟨h1, h2⟩ := h
        subst h1
        subst h2
        have hb := stepB_buf cfg tnw line i l₁ effs heq acc hacc
        have hrec := ih l₁ (lastDrawnFrom acc effs) hb l₂ trace₁ (by simpa [runB] using heq₁)
        rw [lastDrawnFrom_append]
        exact hrec

/-- One variant-A `drawtext` step: at most one excessive-width warning,
none once `warned` is set, and the flag is sticky. -/
theorem stepA_warn (cfg : DrawCfg) (tnw : String → Int) (line : LineState)
    (inp : Option String × Bool) (l₁ : LineState) (effs : List Effect)
    (h : stepA cfg tnw line inp = .ok (l₁, effs)) :
    warnCount effs ≤ 1 ∧
    (line.warned = true → warnCount effs = 0 ∧ l₁.warned = true) ∧
    (l₁.warned = false → warnCount effs = 0) := by
  obtain ⟨f, force⟩ := inp
  cases f with
  | none => simp [stepA, drawtextA] at h
  | some buf =>
    by_cases hns : force = false ∧ buf = line.buf
    · obtain ⟨hf, hb⟩ := hns
      subst hf
      simp [stepA, drawtextA_skip cfg tnw line buf hb] at h
      obtain ⟨h1, h2⟩ := h
      subst h1
      subst h2
      simp [warnCount]
    · by_cases hw : line.warned = false ∧ tnw buf > cfg.dcw <;>
        · simp [stepA, drawtextA_paint cfg tnw line buf force hns, hw] at h
          obtain ⟨h1, h2⟩ := h
          subst h1
          subst h2
          simp_all [warnCount, isWarnExcessive]

/-- One variant-B `drawtext` step: the same warning discipline. -/
theorem stepB_warn (cfg : DrawCfg) (tnw : String → Int) (line : LineStateB)
    (f : Option String) (l₁ : LineStateB) (effs : List Effect)
    (h : stepB cfg tnw line f = .ok (l₁, effs)) :
    warnCount effs ≤ 1 ∧
    (line.warned = true → warnCount effs = 0 ∧ l₁.warned = true) ∧
    (l₁.warned = false → warnCount effs = 0) := by
  cases f with
  | none => simp [stepB, drawtextB] at h
  | some buf =>
    by_cases hns : buf = line.buf
    · simp [stepB, drawtextB_skip cfg tnw line buf hns] at h
      obtain ⟨h1, h2⟩ := h
      subst h1
      subst h2
      simp [warnCount]
    · by_cases h0 : line.fwidth * (buf.length : Int) = 0
      · by_cases hw : line.warned = false ∧ tnw buf + Int.tdiv (tnw buf) 8 > cfg.dcw <;>
          · simp [stepB, drawtextB_paint cfg tnw line buf hns, h0, hw] at h
            obtain ⟨h1, h2⟩ := h
            subst h1
            subst h2
            simp_all [warnCount, isWarnExcessive]
      · by_cases hw : line.warned = false ∧ line.fwidth * (buf.length : Int) > cfg.dcw <;>
          · simp [stepB, drawtextB_paint cfg tnw line buf hns, h0, hw] at h
            obtain ⟨h1, h2⟩ := h
            subst h1
            subst h2
            simp_all [warnCount, isWarnExcessive]

/-- Over any sequence of variant-A `drawtext` calls: no excessive-width
warning once `warned` is set, and at most one in total. -/
theorem runA_warn (cfg : DrawCfg) (tnw : String → Int) :
    ∀ (inputs : List (Option String × Bool)) (line l' : LineState)
      (trace : List Effect),
      runA cfg tnw line inputs = .ok (l', trace) →
      (line.warned = true → warnCount trace = 0) ∧ warnCount trace ≤ 1 := by
  intro inputs
  induction inputs with
  | nil =>
    intro line l' trace h
    simp [runA, runSteps] at h
    obtain ⟨h1, h2⟩ := h
    subst h2
    simp [warnCount]
  | cons i is ih =>
    intro line l' trace h
    simp only [runA, runSteps] at h
    split at h
    next e heq => simp at h
    next l₁ effs heq =>
      split at h
      next c effs₁ heq₁ => simp at h
      next l₂ trace₁ heq₁ =>
        simp only [Except.ok.injEq, Prod.mk.injEq] at h
        obtain ⟨h1, h2⟩ := h
        subst h1
        subst h2
        obtain ⟨hle, htrue, hfalse⟩ := stepA_warn cfg tnw line i l₁ effs heq
        obtain ⟨ih1, ih2⟩ := ih l₁ l₂ trace₁ (by simpa [runA] using heq₁)
        rw [warnCount_append]
        constructor
        · intro hw
          obtain ⟨hc, hw1⟩ := htrue hw
          rw [hc, ih1 hw1]
        · cases hl : l₁.warned with
          | false => rw [hfalse hl]; simpa using ih2
          | true => rw [ih1 hl]; simpa using hle

/-- Over any sequence of variant-B `drawtext` calls: the same bound. -/
theorem runB_warn (cfg : DrawCfg) (tnw : String → Int) :
    ∀ (inputs : List (Option String)) (line l' : LineStateB)
      (trace : List Effect),
      runB cfg tnw line inputs = .ok (l', trace) →
      (line.warned = true → warnCount trace = 0) ∧ warnCount trace ≤ 1 := by
  intro inputs
  induction inputs with
  | nil =>
    intro line l' trace h
    simp [runB, runSteps] at h
    obtain ⟨h1, h2⟩ := h
    subst h2
    simp [warnCount]
  | cons i is ih =>
    intro line l' trace h
    simp only [runB, runSteps] at h
    split at h
    next e heq => simp at h
    next l₁ effs heq =>
      split at h
      next c effs₁ heq₁ => simp at h
      next l₂ trace₁ heq₁ =>
        simp only [Except.ok.injEq, Prod.mk.injEq] at h
        obtain ⟨h1, h2⟩ := h
        subst h1
        subst h2
        obtain ⟨hle, htrue, hfalse⟩ := stepB_warn cfg tnw line i l₁ effs heq
        obtain ⟨ih1, ih2⟩ := ih l₁ l₂ trace₁ (by simpa [runB] using heq₁)
        rw [warnCount_append]
        constructor
        · intro hw
          obtain ⟨hc, hw1⟩ := htrue hw
          rw [hc, ih1 hw1]
        · cases hl : l₁.warned with
          | false => rw [hfalse hl]; simpa using ih2
          | true => rw [ih1 hl]; simpa using hle

/-- Variant A `drawtext`: whenever it reports a change, it drew the full
formatted string (no truncation), whatever its width. -/
theorem drawtextA_changed_draws (cfg : DrawCfg) (tnw : String → Int)
    (line : LineState) (buf : String) (force : Bool) (l₁ : LineState)
    (effs : List Effect)
    (h : drawtextA cfg tnw line (some buf) force = .ok (l₁, effs, true)) :
    Effect.drawString (Int.tdiv (cfg.dcw - tnw buf) 2) (line.y + line.ascent) buf ∈ effs := by
  by_cases hns : force = false ∧ buf = line.buf
  · obtain ⟨hf, hb⟩ := hns
    subst hf
    rw [drawtextA_skip cfg tnw line buf hb] at h
    simp at h
  · rw [drawtextA_paint cfg tnw line buf force hns] at h
    simp only [Except.ok.injEq, Prod.mk.injEq] at h
    obtain ⟨-, he, -⟩ := h
    rw [← he]
    exact List.mem_cons_of_mem _ (List.mem_append_right _ (by simp))

/-- Variant B `drawtext`: whenever the text changed, the full formatted
string is drawn at the line's baseline (no truncation). -/
theorem drawtextB_changed_draws (cfg : DrawCfg) (tnw : String → Int)
    (line : LineStateB) (buf : String) (l₁ : LineStateB) (effs : List Effect)
    (hns : ¬(buf = line.buf))
    (h : drawtextB cfg tnw line (some buf) = .ok (l₁, effs)) :
    ∃ x, Effect.drawString x (line.y + line.ascent) buf ∈ effs := by
  rw [drawtextB_paint cfg tnw line buf hns] at h
  simp only [Except.ok.injEq, Prod.mk.injEq] at h
  obtain ⟨-, he⟩ := h
  rw [← he]
  exact ⟨_, List.mem_append_right _
    (List.mem_cons_of_mem _ (List.mem_cons_of_mem _ (List.mem_cons_self _ _)))⟩

/-- C4: over any sequence of renderer calls from an initial empty
`lastText`, `lastText` always equals the most recently painted string (or
stays empty before the first paint) — in both variants; per call, a
successful paint sets `lastText` to exactly the string it drew, and a
skipped call changes nothing. -/
theorem C4_lastText_invariant :
    (∀ (cfg : DrawCfg) (tnw : String → Int) (line₀ l' : LineState)
        (inputs : List (Option String × Bool)) (trace : List Effect),
        line₀.buf = "" →
        runA cfg tnw line₀ inputs = .ok (l', trace) →
        l'.buf = (lastDrawn trace).getD "") ∧
    (∀ (cfg : DrawCfg) (tnw : String → Int) (line₀ l' : LineStateB)
        (inputs : List (Option String)) (trace : List Effect),
        line₀.buf = "" →
        runB cfg tnw line₀ inputs = .ok (l', trace) →
        l'.buf = (lastDrawn trace).getD "") ∧
    (∀ (cfg : DrawCfg) (tnw : String → Int) (line : LineState) (f : Option String)
        (force : Bool) (l₁ : LineState) (effs : List Effect) (ch : Bool),
        drawtextA cfg tnw line f force = .ok (l₁, effs, ch) →
        (ch = true → lastDrawn effs = some l₁.buf) ∧
        (ch = false → l₁ = line ∧ effs = [])) := by
  refine ⟨?_, ?_, ?_⟩
  · intro cfg tnw line₀ l' inputs trace h0 h
    simpa [lastDrawn] using
      runA_buf cfg tnw inputs line₀ none (by simpa using h0) l' trace h
  · intro cfg tnw line₀ l' inputs trace h0 h
    simpa [lastDrawn] using
      runB_buf cfg tnw inputs line₀ none (by simpa using h0) l' trace h
  · intro cfg tnw line f force l₁ effs ch h
    cases f with
    | none => simp [drawtextA] at h
    | some buf =>
      by_cases hns : force = false ∧ buf = line.buf
      · obtain ⟨hf, hb⟩ := hns
        subst hf
        rw [drawtextA_skip cfg tnw line buf hb] at h
        simp only [Except.ok.injEq, Prod.mk.injEq] at h
        obtain ⟨h1, h2, h3⟩ := h
        subst h1
        subst h2
        subst h3
        simp
      · by_cases hw : line.warned = false ∧ tnw buf > cfg.dcw <;>
          · simp [drawtextA_paint cfg tnw line buf force hns, hw] at h
            obtain ⟨h1, h2, h3⟩ := h
            subst h1
            subst h2
            subst h3
            simp [lastDrawn, lastDrawnFrom]

/-- Witness for C4: a two-tick run whose second tick is a no-op leaves
`lastText` equal to the single painted string. -/
theorem C4_lastText_invariant_witness :
    (⟨"a", 0, 8, 10, false⟩ : LineState).buf =
      (lastDrawn [Effect.measureText "a", Effect.setForeground 7,
        Effect.fillRect 0 0 100 10, Effect.drawString 45 8 "a"]).getD "" :=
  C4_lastText_invariant.1 ⟨0, 100, 1, 7⟩ (fun s => 10 * (s.length : Int))
    ⟨"", 0, 8, 10, false⟩ ⟨"a", 0, 8, 10, false⟩
    [(some "a", false), (some "a", false)]
    [Effect.measureText "a", Effect.setForeground 7,
     Effect.fillRect 0 0 100 10, Effect.drawString 45 8 "a"]
    rfl (by rfl)

/-- C6: over any sequence of renderer calls, the "excessive width"
diagnostic appears at most once in the whole trace (and never again once
the flag is set), in both variants; and an oversized text is still drawn in
full on every tick on which the text changed. -/
theorem C6_excessive_width_warned_once :
    (∀ (cfg : DrawCfg) (tnw : String → Int) (line₀ l' : LineState)
        (inputs : List (Option String × Bool)) (trace : List Effect),
        runA cfg tnw line₀ inputs = .ok (l', trace) → warnCount trace ≤ 1) ∧
    (∀ (cfg : DrawCfg) (tnw : String → Int) (line₀ l' : LineStateB)
        (inputs : List (Option String)) (trace : List Effect),
        runB cfg tnw line₀ inputs = .ok (l', trace) → warnCount trace ≤ 1) ∧
    (∀ (cfg : DrawCfg) (tnw : String → Int) (line : LineState) (buf : String)
        (force : Bool) (l₁ : LineState) (effs : List Effect),
        drawtextA cfg tnw line (some buf) force = .ok (l₁, effs, true) →
        Effect.drawString (Int.tdiv (cfg.dcw - tnw buf) 2) (line.y + line.ascent) buf ∈ effs) ∧
    (∀ (cfg : DrawCfg) (tnw : String → Int) (line : LineStateB) (buf : String)
        (l₁ : LineStateB) (effs : List Effect),
        ¬(buf = line.buf) → drawtextB cfg tnw line (some buf) = .ok (l₁, effs) →
        ∃ x, Effect.drawString x (line.y + line.ascent) buf ∈ effs) :=
  ⟨fun cfg tnw line₀ l' inputs trace h => (runA_warn cfg tnw inputs line₀ l' trace h).2,
   fun cfg tnw line₀ l' inputs trace h => (runB_warn cfg tnw inputs line₀ l' trace h).2,
   fun cfg tnw line buf force l₁ effs h =>
     drawtextA_changed_draws cfg tnw line buf force l₁ effs h,
   fun cfg tnw line buf l₁ effs hns h =>
     drawtextB_changed_draws cfg tnw line buf l₁ effs hns h⟩

/-- Witness for C6: two consecutive oversize ticks (width 30 on a surface
of width 20) warn exactly once and still draw both strings. -/
theorem C6_excessive_width_warned_once_witness :
    warnCount [Effect.measureText "aaa", Effect.warnExcessiveWidth 30 "aaa",
      Effect.setForeground 7, Effect.fillRect 0 0 20 10,
      Effect.drawString (-5) 8 "aaa", Effect.measureText "bbb",
      Effect.setForeground 7, Effect.fillRect 0 0 20 10,
      Effect.drawString (-5) 8 "bbb"] ≤ 1 :=
  C6_excessive_width_warned_once.1 ⟨0, 20, 1, 7⟩ (fun s => 10 * (s.length : Int))
    ⟨"", 0, 8, 10, false⟩ ⟨"bbb", 0, 8, 10, true⟩
    [(some "aaa", false), (some "bbb", false)]
    [Effect.measureText "aaa", Effect.warnExcessiveWidth 30 "aaa",
     Effect.setForeground 7, Effect.fillRect 0 0 20 10,
     Effect.drawString (-5) 8 "aaa", Effect.measureText "bbb",
     Effect.setForeground 7, Effect.fillRect 0 0 20 10,
     Effect.drawString (-5) 8 "bbb"] (by rfl)

/-- C5: `initline` (variant B) selects the fixed-pitch path exactly when
the font's maximum advance width is at most 1.5× the measured "0" width
(the C float comparison `fwidth > z * 1.5` is `2*fwidth > 3*z` over the
integers); on the fixed path `fwidth` is kept and nothing is warned, on the
fallback it is zeroed and (at debug > 0) exactly one warning is emitted.
In `drawtext`, a nonzero `fwidth` yields paint width `fwidth × length`
with no slack and no measurement round trip; `fwidth = 0` yields the
measured width plus a `w/8` slack. -/
theorem C5_fixed_pitch_heuristic :
    (∀ (d ma : Int) (tnw : String → Int), 0 < ma →
        (((initlineB d ma tnw).1 = ma) ↔ 2 * ma ≤ 3 * tnw "0")) ∧
    (∀ (d ma : Int) (tnw : String → Int), 2 * ma ≤ 3 * tnw "0" →
        initlineB d ma tnw = (ma, [Effect.measureText "0"])) ∧
    (∀ (d ma : Int) (tnw : String → Int), 0 < d → 3 * tnw "0" < 2 * ma →
        initlineB d ma tnw = (0, [Effect.measureText "0", Effect.warnNonMonospace])) ∧
    (∀ (cfg : DrawCfg) (tnw : String → Int) (line : LineStateB) (buf : String)
        (l₁ : LineStateB) (effs : List Effect),
        line.fwidth * (buf.length : Int) ≠ 0 →
        drawtextB cfg tnw line (some buf) = .ok (l₁, effs) →
        (∀ s, Effect.measureText s ∉ effs) ∧
        (¬(buf = line.buf) →
          Effect.fillRect (Int.tdiv (cfg.dcw - line.fwidth * (buf.length : Int)) 2) line.y
            (line.fwidth * (buf.length : Int)) line.height ∈ effs)) ∧
    (∀ (cfg : DrawCfg) (tnw : String → Int) (line : LineStateB) (buf : String)
        (l₁ : LineStateB) (effs : List Effect),
        line.fwidth = 0 → ¬(buf = line.buf) →
        drawtextB cfg tnw line (some buf) = .ok (l₁, effs) →
        Effect.measureText buf ∈ effs ∧
        Effect.fillRect (Int.tdiv (cfg.dcw - tnw buf) 2) line.y
          (tnw buf + Int.tdiv (tnw buf) 8) line.height ∈ effs) := by
  refine ⟨?_, ?_, ?_, ?_, ?_⟩
  · intro d ma tnw hma
    by_cases hgt : 2 * ma > 3 * tnw "0"
    · have hgt' : 3 * tnw "0" < 2 * ma := hgt
      simp only [initlineB, if_pos hgt]
      constructor
      · intro h0; omega
      · intro hle; omega
    · simp only [initlineB, if_neg hgt]
      constructor
      · intro _; omega
      · intro _; trivial
  · intro d ma tnw hle
    have hgt : ¬(2 * ma > 3 * tnw "0") := by omega
    simp [initlineB, hgt]
  · intro d ma tnw hd hlt
    have hgt : 2 * ma > 3 * tnw "0" := by omega
    simp [initlineB, hgt, hd]
  · intro cfg tnw line buf l₁ effs h0 hok
    by_cases hns : buf = line.buf
    · rw [drawtextB_skip cfg tnw line buf hns] at hok
      simp only [Except.ok.injEq, Prod.mk.injEq] at hok
      obtain ⟨-, he⟩ := hok
      rw [← he]
      exact ⟨fun s => by simp, fun hns2 => absurd hns hns2⟩
    · by_cases hw : line.warned = false ∧ line.fwidth * (buf.length : Int) > cfg.dcw <;>
        · simp [drawtextB_paint cfg tnw line buf hns, h0, hw] at hok
          obtain ⟨-, he⟩ := hok
          rw [← he]
          exact ⟨fun s => by simp, fun _ => by simp⟩
  · intro cfg tnw line buf l₁ effs hf hns hok
    have h0 : line.fwidth * (buf.length : Int) = 0 := by simp [hf]
    by_cases hw : line.warned = false ∧ tnw buf + Int.tdiv (tnw buf) 8 > cfg.dcw <;>
      · simp [drawtextB_paint cfg tnw line buf hns, h0, hw] at hok
        obtain ⟨-, he⟩ := hok
        rw [← he]
        exact ⟨by simp, by simp⟩

/-- Witness for C5: the spec's example fonts — `maxAdvanceWidth = 100`
with "0"-width 70 selects fixed pitch silently; `maxAdvanceWidth = 120`
falls back to proportional with exactly one warning. -/
theorem C5_fixed_pitch_heuristic_witness :
    initlineB 1 100 (fun _ => 70) = (100, [Effect.measureText "0"]) ∧
    initlineB 1 120 (fun _ => 70) = (0, [Effect.measureText "0", Effect.warnNonMonospace]) :=
  ⟨C5_fixed_pitch_heuristic.2.1 1 100 (fun _ => 70) (by decide),
   C5_fixed_pitch_heuristic.2.2.1 1 120 (fun _ => 70) (by decide) (by decide)⟩

end Wallclock
